import Mathlib

/-!
Shallow embedding of the zonetrix core layout engine: data model, numbering,
grid/arc/circle/sections generators, the collision/auto-adjustment engine and
the zoom/pan controller, together with theorems settling the frozen claims.

Numeric embedding: exact-arithmetic code (positions, rectangles, zoom math)
is embedded over `ℚ`; trigonometric code (polar conversion, arc radius
solving, arc/circle generation) over `ℝ` with `Real.sin`/`Real.cos`.
The source field `labelPrefix` is rendered as `labelPfx` throughout.
-/

namespace Zonetrix

/-- Numbering scheme tag from `NumberingConfig.scheme`. -/
inductive NumberingScheme where
  | rowCol
  | snake
  | index
  | alphaRows
deriving DecidableEq

/-- The type `NumberingConfig` from models.ts: optional fields mirror the TS optionals. -/
structure NumberingConfig where
  scheme : NumberingScheme
  startIndex : Option Int
  rowLabels : Option (List String)
  colStart : Option Int
deriving DecidableEq

/-- The type `CellKind` from models.ts. -/
inductive CellKind where
  | seat
  | booth
deriving DecidableEq

/-- Cell availability status from `CellMeta.status`. -/
inductive CellStatus where
  | available
  | unavailable
  | held
  | sold
  | booked
deriving DecidableEq

/-- The type `CellId` from models.ts. -/
structure CellId where
  sectionId : Option String
  row : Option Nat
  col : Option Nat
  index : Option Nat
deriving DecidableEq

/-- The type `CellMeta` from models.ts, parametric in the numeric coordinate type. -/
structure CellMeta (α : Type) where
  label : Option String
  rowLabel : Option String
  colLabel : Option String
  price : Option α
  status : Option CellStatus
deriving DecidableEq

/-- The type `Cell` from models.ts, parametric in the numeric coordinate type
(`ℚ` for grid/sections, `ℝ` for trigonometric arc/circle layouts). -/
structure Cell (α : Type) where
  id : CellId
  kind : CellKind
  x : α
  y : α
  w : α
  h : α
  rotation : Option α
  meta : Option (CellMeta α)
deriving DecidableEq

/-- A 2D point with x and y coordinates. -/
structure Point (α : Type) where
  x : α
  y : α
deriving DecidableEq

/-- The constant `DEFAULT_ALPHABET` of numbering.ts. -/
def DEFAULT_ALPHABET : List Char :=
  ['A', 'B', 'C', 'D', 'E', 'F', 'G', 'H', 'I', 'J', 'K', 'L', 'M',
   'N', 'O', 'P', 'Q', 'R', 'S', 'T', 'U', 'V', 'W', 'X', 'Y', 'Z']

/-- The source function `getAlphaLabel` of numbering.ts: base-26 alphabetic row encoding
(0 to A, 25 to Z, 26 to AA, ...). The source do-while loop prepends
`DEFAULT_ALPHABET[num % 26]` and continues with `floor(num/26) - 1`
while that stays nonnegative; for naturals this is the recursion below. -/
def getAlphaLabel (index : Nat) : String :=
  if h : index < 26 then
    String.mk [DEFAULT_ALPHABET.getD index 'A']
  else
    getAlphaLabel (index / 26 - 1) ++ String.mk [DEFAULT_ALPHABET.getD (index % 26) 'A']
termination_by index
decreasing_by
  have h26 : 26 ≤ index := Nat.le_of_not_lt h
  have : index / 26 ≤ index := Nat.div_le_self index 26
  omega

/-- The source function `generateRowColLabel` of numbering.ts. JS `customRowLabels[row] || fallback`
falls through on a missing entry and on the empty string. -/
def generateRowColLabel (row col : Nat) (startIndex colStart : Int)
    ( labelPfx : Option String) (customRowLabels : Option (List String)) : String :=
  let rowLabel :=
    match customRowLabels with
    | some ls =>
        match ls.get? row with
        | some s => if s = "" then toString ((row : Int) + startIndex) else s
        | none => toString ((row : Int) + startIndex)
    | none =>
        match labelPfx with
        | some p => p ++ toString ((row : Int) + startIndex)
        | none => getAlphaLabel row
  rowLabel ++ toString ((col : Int) + colStart)

/-- The source function `generateSnakeLabel` of numbering.ts (the simplified legacy version using
a hard-coded factor of 100 instead of the real column count). -/
def generateSnakeLabel (row col : Nat) (startIndex : Int)
    ( labelPfx : Option String) : String :=
  let index : Int := (row : Int) * 100 + (col : Int) + startIndex
  match labelPfx with
  | some p => p ++ toString index
  | none => toString index

/-- The source function `generateIndexLabel` of numbering.ts (simplified legacy version). -/
def generateIndexLabel (row col : Nat) (startIndex : Int) : String :=
  toString ((row : Int) * 100 + (col : Int) + startIndex)

/-- The source function `generateAlphaRowsLabel` of numbering.ts. -/
def generateAlphaRowsLabel (row col : Nat) (colStart : Int)
    (customRowLabels : Option (List String)) : String :=
  let rowLabel :=
    match customRowLabels with
    | some ls =>
        match ls.get? row with
        | some s => if s = "" then getAlphaLabel row else s
        | none => getAlphaLabel row
    | none => getAlphaLabel row
  rowLabel ++ toString ((col : Int) + colStart)

/-- The source function `generateLabel` of numbering.ts: dispatch on the numbering scheme. -/
def generateLabel (row col : Nat) (config : Option NumberingConfig)
    ( labelPfx : Option String) : String :=
  let scheme := (config.map NumberingConfig.scheme).getD NumberingScheme.rowCol
  let startIndex := (config.bind NumberingConfig.startIndex).getD 1
  let colStart := (config.bind NumberingConfig.colStart).getD 1
  match scheme with
  | NumberingScheme.rowCol =>
      generateRowColLabel row col startIndex colStart labelPfx (config.bind NumberingConfig.rowLabels)
  | NumberingScheme.snake => generateSnakeLabel row col startIndex labelPfx
  | NumberingScheme.index => generateIndexLabel row col startIndex
  | NumberingScheme.alphaRows =>
      generateAlphaRowsLabel row col colStart (config.bind NumberingConfig.rowLabels)

/-- The source function `generateSnakeLabelWithCols` of numbering.ts: continuous snake index with
the real column count, reversing direction on odd rows. -/
def generateSnakeLabelWithCols (row col cols : Nat) (startIndex : Int)
    ( labelPfx : Option String) : String :=
  let index : Int :=
    if row % 2 = 0 then
      (row : Int) * (cols : Int) + (col : Int) + startIndex
    else
      (row : Int) * (cols : Int) + ((cols : Int) - 1 - (col : Int)) + startIndex
  match labelPfx with
  | some p => p ++ toString index
  | none => toString index

/-- The source function `generateIndexLabelWithCols` of numbering.ts. -/
def generateIndexLabelWithCols (row col cols : Nat) (startIndex : Int) : String :=
  toString ((row : Int) * (cols : Int) + (col : Int) + startIndex)

/-- The source function `generateAngularLabel` of numbering.ts. -/
def generateAngularLabel (index : Nat) (config : Option NumberingConfig)
    ( labelPfx : Option String) : String :=
  let startIndex := (config.bind NumberingConfig.startIndex).getD 1
  let num : Int := (index : Int) + startIndex
  match labelPfx with
  | some p => p ++ toString num
  | none => toString num

/-- Modelled from the spec: `computeAxisLabels` is imported by the grid
generator from the numbering module, but its definition is not among the
provided sources. Per spec §4.2 the row label is the prefixed row index,
a caller-supplied per-row label, or the alphabetic row encoding, and the
column label is the column number shifted by `colStart`. The claims never
depend on its output. -/
def computeAxisLabels (row col : Nat) (config : Option NumberingConfig)
    ( labelPfx : Option String) : Option String × Option String :=
  let startIndex := (config.bind NumberingConfig.startIndex).getD 1
  let colStart := (config.bind NumberingConfig.colStart).getD 1
  let rowLabel :=
    match (config.bind NumberingConfig.rowLabels).bind (fun ls => ls.get? row) with
    | some s => s
    | none =>
        match labelPfx with
        | some p => p ++ toString ((row : Int) + startIndex)
        | none => getAlphaLabel row
  (some rowLabel, some (toString ((col : Int) + colStart)))

/-- The type `GridLayoutConfig` from models.ts (geometry and numbering fields used by
`createGridLayout`; the `type` discriminant is implied by the Lean type). -/
structure GridLayoutConfig where
  rows : Nat
  cols : Nat
  cellSize : ℚ
  gap : Option ℚ
  origin : Option (Point ℚ)
  numbering : Option NumberingConfig
  labelPfx : Option String
  autoPreventOverlap : Option Bool
  minSpacing : Option ℚ
deriving DecidableEq

/-- The source function `calculateMinimumGridGap` of collision-detection.ts. -/
def calculateMinimumGridGap (_cellWidth _cellHeight minSpacing : ℚ) : ℚ :=
  max 0 minSpacing

/-- The gap value actually used by `createGridLayout`: lifted to the minimum
grid gap when automatic overlap prevention is on. -/
def gridAdjustedGap (config : GridLayoutConfig) : ℚ :=
  let gap := config.gap.getD 0
  if config.autoPreventOverlap.getD true then
    max gap (calculateMinimumGridGap config.cellSize config.cellSize (config.minSpacing.getD 2))
  else gap

/-- The loop body of `createGridLayout`: the cell generated at `(row, col)`. -/
def gridCell (config : GridLayoutConfig) (row col : Nat) : Cell ℚ :=
  let origin := config.origin.getD ⟨0, 0⟩
  let adjustedGap := gridAdjustedGap config
  let startIndex := (config.numbering.bind NumberingConfig.startIndex).getD 1
  let scheme := (config.numbering.map NumberingConfig.scheme).getD NumberingScheme.rowCol
  let label :=
    if scheme = NumberingScheme.snake then
      generateSnakeLabelWithCols row col config.cols startIndex config.labelPfx
    else if scheme = NumberingScheme.index then
      generateIndexLabelWithCols row col config.cols startIndex
    else
      generateLabel row col config.numbering config.labelPfx
  let axis := computeAxisLabels row col config.numbering config.labelPfx
  { id := ⟨none, some row, some col, none⟩
    kind := CellKind.seat
    x := origin.x + (col : ℚ) * (config.cellSize + adjustedGap) + config.cellSize / 2
    y := origin.y + (row : ℚ) * (config.cellSize + adjustedGap) + config.cellSize / 2
    w := config.cellSize
    h := config.cellSize
    rotation := none
    meta := some ⟨some label, axis.1, axis.2, none, some CellStatus.available⟩ }

/-- The source function `createGridLayout` of layout-grid.ts (the variant with automatic overlap
prevention): row-major generation of `rows * cols` cells with per-scheme
labels; the two nested `for` loops become `range`/`flatMap`/`map`. -/
def createGridLayout (config : GridLayoutConfig) : List (Cell ℚ) :=
  (List.range config.rows).flatMap fun (row : Nat) =>
    (List.range config.cols).map (gridCell config row)

/-- The type `Rectangle` from collision-detection.ts. -/
structure Rectangle where
  x : ℚ
  y : ℚ
  width : ℚ
  height : ℚ
deriving DecidableEq

/-- The source function `cellToRectangle` of collision-detection.ts: center-based cell to
top-left rectangle inflated by `padding`. -/
def cellToRectangle (cell : Cell ℚ) (padding : ℚ) : Rectangle :=
  ⟨cell.x - cell.w / 2 - padding, cell.y - cell.h / 2 - padding,
   cell.w + padding * 2, cell.h + padding * 2⟩

/-- The source function `rectanglesIntersect` of collision-detection.ts: the half-open interval
test (`<=` comparisons negated). -/
def rectanglesIntersect (rect1 rect2 : Rectangle) : Bool :=
  !(decide (rect1.x + rect1.width ≤ rect2.x) ||
    decide (rect2.x + rect2.width ≤ rect1.x) ||
    decide (rect1.y + rect1.height ≤ rect2.y) ||
    decide (rect2.y + rect2.height ≤ rect1.y))

/-- The source function `cellsOverlap` of collision-detection.ts. -/
def cellsOverlap (cell1 cell2 : Cell ℚ) (minSpacing : ℚ) : Bool :=
  rectanglesIntersect (cellToRectangle cell1 (minSpacing / 2))
    (cellToRectangle cell2 (minSpacing / 2))

/-- The type `SectionBlock` from models.ts, with the optional per-block
`autoPreventOverlap`/`minSpacing` fields read by the sections generator. -/
structure SectionBlock where
  id : String
  name : Option String
  origin : Point ℚ
  rows : Nat
  cols : Nat
  cellSize : ℚ
  gap : Option ℚ
  numbering : Option NumberingConfig
  labelPfx : Option String
  autoPreventOverlap : Option Bool
  minSpacing : Option ℚ
deriving DecidableEq

/-- The source function `calculateSectionBounds` of collision-detection.ts. -/
def calculateSectionBounds (block : SectionBlock) (minSectionSpacing : ℚ) : Rectangle :=
  let gap := block.gap.getD 0
  let totalWidth := (block.cols : ℚ) * (block.cellSize + gap)
  let totalHeight := (block.rows : ℚ) * (block.cellSize + gap)
  let spacing := minSectionSpacing
  ⟨block.origin.x - spacing / 2, block.origin.y - spacing / 2,
   totalWidth + spacing, totalHeight + spacing⟩

/-- The source function `sectionsOverlap` of collision-detection.ts. -/
def sectionsOverlap (block1 block2 : SectionBlock) (minSectionSpacing : ℚ) : Bool :=
  rectanglesIntersect (calculateSectionBounds block1 minSectionSpacing)
    (calculateSectionBounds block2 minSectionSpacing)

/-- One entry of `SectionOverlapResult.overlappingPairs`. -/
structure SectionOverlapPair where
  section1 : SectionBlock
  section2 : SectionBlock
  section1Bounds : Rectangle
  section2Bounds : Rectangle
deriving DecidableEq

/-- The type `SectionOverlapResult` from collision-detection.ts. -/
structure SectionOverlapResult where
  hasOverlaps : Bool
  overlappingPairs : List SectionOverlapPair
  overlapCount : Nat
deriving DecidableEq

/-- The `i < j` pair enumeration of the nested loops in
`detectSectionOverlaps`. -/
def orderedPairs : List SectionBlock → List (SectionBlock × SectionBlock)
  | [] => []
  | b :: bs => (bs.map fun b2 => (b, b2)) ++ orderedPairs bs

/-- The source function `detectSectionOverlaps` of collision-detection.ts: exhaustive pairwise
scan over the block list. -/
def detectSectionOverlaps (blocks : List SectionBlock) (minSectionSpacing : ℚ) :
    SectionOverlapResult :=
  let overlappingPairs :=
    ((orderedPairs blocks).filter fun p => sectionsOverlap p.1 p.2 minSectionSpacing).map
      fun p => SectionOverlapPair.mk p.1 p.2
        (calculateSectionBounds p.1 minSectionSpacing)
        (calculateSectionBounds p.2 minSectionSpacing)
  ⟨!overlappingPairs.isEmpty, overlappingPairs, overlappingPairs.length⟩

/-- One square ring of candidate offsets from `findNextAvailablePosition`
at distance `50 * (k + 1)`, in source traversal order: top edge left to
right, right edge top to bottom, bottom edge right to left, left edge
bottom to top (excluding the top-left corner already emitted). -/
def ringOffsets (k : Nat) : List (Int × Int) :=
  let d : Int := 50 * ((k : Int) + 1)
  ((List.range (2 * (k + 1) + 1)).map fun (i : Nat) => (-d + 50 * (i : Int), -d)) ++
  ((List.range (2 * (k + 1))).map fun (i : Nat) => (d, -d + 50 + 50 * (i : Int))) ++
  ((List.range (2 * (k + 1))).map fun (i : Nat) => (d - 50 - 50 * (i : Int), d)) ++
  ((List.range (2 * k + 1)).map fun (i : Nat) => (-d, d - 50 - 50 * (i : Int)))

/-- The full `searchOffsets` array of `findNextAvailablePosition`: the
original position followed by expanding square rings up to the 5000px cap
in 50px steps. -/
def searchOffsets : List (Int × Int) :=
  (0, 0) :: (List.range 100).flatMap ringOffsets

/-- The inflated candidate bounds tested inside `findNextAvailablePosition`. -/
def candidateBounds (block : SectionBlock) (minSpacing : ℚ) (o : Int × Int) : Rectangle :=
  let bounds := calculateSectionBounds block 0
  ⟨block.origin.x + (o.1 : ℚ) - minSpacing / 2,
   block.origin.y + (o.2 : ℚ) - minSpacing / 2,
   bounds.width + minSpacing, bounds.height + minSpacing⟩

/-- The source function `findNextAvailablePosition` of collision-detection.ts: first offset in
the search order whose inflated bounds intersect no existing bounds;
falls back to `x = 5000` when the cap is exhausted. -/
def findNextAvailablePosition (block : SectionBlock) (existingBounds : List Rectangle)
    (minSpacing : ℚ) : Point ℚ :=
  match searchOffsets.find? (fun o =>
      !(existingBounds.any fun e => rectanglesIntersect (candidateBounds block minSpacing o) e)) with
  | some o => ⟨block.origin.x + (o.1 : ℚ), block.origin.y + (o.2 : ℚ)⟩
  | none => ⟨5000, block.origin.y⟩

/-- The area key of the descending sort in `compactLayoutStrategy`. -/
def sectionArea (b : SectionBlock) : ℚ :=
  ((b.rows : ℚ) * (b.cellSize + b.gap.getD 0)) * ((b.cols : ℚ) * (b.cellSize + b.gap.getD 0))

/-- The placement loop of `compactLayoutStrategy`: place each block at the
first available position and record its inflated bounds. -/
def compactPlace (placed : List Rectangle) (minSpacing : ℚ) :
    List SectionBlock → List SectionBlock
  | [] => []
  | b :: bs =>
    let pos := findNextAvailablePosition b placed minSpacing
    let b' : SectionBlock := { b with origin := pos }
    b' :: compactPlace (placed ++ [calculateSectionBounds b' minSpacing]) minSpacing bs

/-- The source function `compactLayoutStrategy` of collision-detection.ts: stable sort by area
descending (the JS comparator `areaB - areaA`), then greedy placement. -/
def compactLayoutStrategy (blocks : List SectionBlock) (minSpacing : ℚ) :
    List SectionBlock :=
  if blocks.isEmpty then []
  else compactPlace [] minSpacing (blocks.mergeSort fun a b => decide (sectionArea b ≤ sectionArea a))

/-- The horizontal/vertical direction tag of the distribute strategy. -/
inductive SectionDirection where
  | horizontal
  | vertical
deriving DecidableEq

/-- The per-direction placement loop of `distributeLayoutStrategy`. -/
def distributeGo (minSpacing : ℚ) (dir : SectionDirection) (start : ℚ) (current : ℚ) :
    List SectionBlock → List SectionBlock
  | [] => []
  | b :: bs =>
    let bounds := calculateSectionBounds b 0
    match dir with
    | SectionDirection.horizontal =>
        { b with origin := ⟨current + minSpacing / 2, start⟩ } ::
          distributeGo minSpacing dir start (current + bounds.width + minSpacing) bs
    | SectionDirection.vertical =>
        { b with origin := ⟨start, current + minSpacing / 2⟩ } ::
          distributeGo minSpacing dir start (current + bounds.height + minSpacing) bs

/-- The source function `distributeLayoutStrategy` of collision-detection.ts: linear layout with
spacing, aligned to the minimum y (horizontal) or minimum x (vertical). -/
def distributeLayoutStrategy (blocks : List SectionBlock) (minSpacing : ℚ)
    (direction : SectionDirection) : List SectionBlock :=
  match blocks with
  | [] => []
  | b :: bs =>
    match direction with
    | SectionDirection.horizontal =>
        let startY := (bs.map fun x => x.origin.y).foldl min b.origin.y
        distributeGo minSpacing SectionDirection.horizontal startY 0 (b :: bs)
    | SectionDirection.vertical =>
        let startX := (bs.map fun x => x.origin.x).foldl min b.origin.x
        distributeGo minSpacing SectionDirection.vertical startX 0 (b :: bs)

/-- One nudge of `preserveRelativeStrategy`: push the two members of an
overlapping pair apart along the axis of lesser overlap. The recorded
bounds come from the detection at the top of the iteration (as in the
source), while origins are read from the current list state. -/
def nudgePair (minSpacing : ℚ) (adjusted : List SectionBlock)
    (ov : SectionOverlapPair) : List SectionBlock :=
  match adjusted.findIdx? (fun b => b.id = ov.section1.id),
        adjusted.findIdx? (fun b => b.id = ov.section2.id) with
  | some idx1, some idx2 =>
    let b1 := ov.section1Bounds
    let b2 := ov.section2Bounds
    let overlapX := min (b1.x + b1.width - b2.x) (b2.x + b2.width - b1.x)
    let overlapY := min (b1.y + b1.height - b2.y) (b2.y + b2.height - b1.y)
    let c1 := (adjusted.get? idx1).getD ov.section1
    let c2 := (adjusted.get? idx2).getD ov.section2
    if overlapX < overlapY then
      let shift := overlapX / 2 + minSpacing
      if c1.origin.x < c2.origin.x then
        (adjusted.set idx1 { c1 with origin := ⟨c1.origin.x - shift, c1.origin.y⟩ }).set idx2
          { c2 with origin := ⟨c2.origin.x + shift, c2.origin.y⟩ }
      else
        (adjusted.set idx1 { c1 with origin := ⟨c1.origin.x + shift, c1.origin.y⟩ }).set idx2
          { c2 with origin := ⟨c2.origin.x - shift, c2.origin.y⟩ }
    else
      let shift := overlapY / 2 + minSpacing
      if c1.origin.y < c2.origin.y then
        (adjusted.set idx1 { c1 with origin := ⟨c1.origin.x, c1.origin.y - shift⟩ }).set idx2
          { c2 with origin := ⟨c2.origin.x, c2.origin.y + shift⟩ }
      else
        (adjusted.set idx1 { c1 with origin := ⟨c1.origin.x, c1.origin.y + shift⟩ }).set idx2
          { c2 with origin := ⟨c2.origin.x, c2.origin.y - shift⟩ }
  | _, _ => adjusted

/-- The bounded relaxation loop of `preserveRelativeStrategy` (the source's
`while iterations < 100` with early exit once no pairs overlap). -/
def preserveRelativeIter (minSpacing : ℚ) (adjusted : List SectionBlock) :
    Nat → List SectionBlock
  | 0 => adjusted
  | fuel + 1 =>
    let overlaps := detectSectionOverlaps adjusted minSpacing
    if !overlaps.hasOverlaps then adjusted
    else preserveRelativeIter minSpacing
      (overlaps.overlappingPairs.foldl (nudgePair minSpacing) adjusted) fuel

/-- The source function `preserveRelativeStrategy` of collision-detection.ts. -/
def preserveRelativeStrategy (blocks : List SectionBlock) (minSpacing : ℚ) :
    List SectionBlock :=
  if blocks.isEmpty then [] else preserveRelativeIter minSpacing blocks 100

/-- The strategy tag of `SectionAdjustmentConfig`. -/
inductive SectionStrategy where
  | compact
  | distribute
  | preserveRelative
deriving DecidableEq

/-- The type `SectionAdjustmentConfig` from collision-detection.ts. -/
structure SectionAdjustmentConfig where
  strategy : Option SectionStrategy
  preferredDirection : Option SectionDirection
  maxIterations : Option Nat
deriving DecidableEq

/-- The source function `autoAdjustSectionPositions` of collision-detection.ts: no-op when no
overlaps exist, otherwise dispatch to the selected strategy. -/
def autoAdjustSectionPositions (blocks : List SectionBlock) (minSectionSpacing : ℚ)
    (config : SectionAdjustmentConfig) : List SectionBlock :=
  let strategy := config.strategy.getD SectionStrategy.compact
  let preferredDirection := config.preferredDirection.getD SectionDirection.horizontal
  if blocks.isEmpty then []
  else if !(detectSectionOverlaps blocks minSectionSpacing).hasOverlaps then blocks
  else
    match strategy with
    | SectionStrategy.compact => compactLayoutStrategy blocks minSectionSpacing
    | SectionStrategy.distribute =>
        distributeLayoutStrategy blocks minSectionSpacing preferredDirection
    | SectionStrategy.preserveRelative => preserveRelativeStrategy blocks minSectionSpacing

/-- The type `SectionsLayoutConfig` from models.ts, with the optional auto-adjustment
fields read by the sections generator. -/
structure SectionsLayoutConfig where
  blocks : List SectionBlock
  autoPreventSectionOverlaps : Option Bool
  minSectionSpacing : Option ℚ
  sectionLayoutStrategy : Option SectionStrategy
  sectionLayoutDirection : Option SectionDirection
deriving DecidableEq

/-- The block list actually iterated by `createSectionsLayout`: the input
blocks, auto-adjusted when prevention is enabled, more than one block is
present, and overlaps are detected. -/
def adjustedSectionBlocks (config : SectionsLayoutConfig) : List SectionBlock :=
  let blocks := config.blocks
  let spacing := config.minSectionSpacing.getD 20
  if config.autoPreventSectionOverlaps.getD true ∧ 1 < blocks.length then
    if (detectSectionOverlaps blocks spacing).hasOverlaps then
      autoAdjustSectionPositions blocks spacing
        ⟨some (config.sectionLayoutStrategy.getD SectionStrategy.compact),
         some (config.sectionLayoutDirection.getD SectionDirection.horizontal), none⟩
    else blocks
  else blocks

/-- The source function `createSectionsLayout` of layout-sections.ts (the variant with automatic
section overlap prevention): each block of the (possibly adjusted) list is
generated by the grid generator and its cells tagged with the block id;
the console logging of the source is dropped as effect-free. -/
def createSectionsLayout (config : SectionsLayoutConfig) : List (Cell ℚ) :=
  (adjustedSectionBlocks config).flatMap fun block =>
    (createGridLayout ⟨block.rows, block.cols, block.cellSize, block.gap,
        some block.origin, block.numbering, block.labelPfx,
        block.autoPreventOverlap, block.minSpacing⟩).map
      fun c => { c with id := ⟨some block.id, c.id.row, c.id.col, c.id.index⟩ }

/-- The source function `clamp` of math.ts: `Math.min(Math.max(value, min), max)`. -/
def clamp (value lo hi : ℚ) : ℚ :=
  min (max value lo) hi

/-- The source function `transformPoint` of math.ts: `screen = world * zoom + pan`. -/
def transformPoint (x y zoom panX panY : ℚ) : ℚ × ℚ :=
  (x * zoom + panX, y * zoom + panY)

/-- The source function `inverseTransformPoint` of math.ts: screen to world coordinates. -/
def inverseTransformPoint (screenX screenY zoom panX panY : ℚ) : ℚ × ℚ :=
  ((screenX - panX) / zoom, (screenY - panY) / zoom)

/-- The bounding-box record returned by `calculateBoundingBox`. -/
structure BoundingBox where
  minX : ℚ
  minY : ℚ
  maxX : ℚ
  maxY : ℚ
  width : ℚ
  height : ℚ
deriving DecidableEq

/-- The fold step of `calculateBoundingBox` over one cell's extents. -/
def boundingFold (acc : ℚ × ℚ × ℚ × ℚ) (cell : Cell ℚ) : ℚ × ℚ × ℚ × ℚ :=
  (min acc.1 (cell.x - cell.w / 2), min acc.2.1 (cell.y - cell.h / 2),
   max acc.2.2.1 (cell.x + cell.w / 2), max acc.2.2.2 (cell.y + cell.h / 2))

/-- The source function `calculateBoundingBox` of math.ts: the empty cell list returns the
degenerate all-zero box; a nonempty list folds min/max extents over the
cells (the source's `±Infinity` seeds collapse to the first cell's extents
after the first iteration, which the head-seeded fold reproduces). -/
def calculateBoundingBox (cells : List (Cell ℚ)) : BoundingBox :=
  match cells with
  | [] => ⟨0, 0, 0, 0, 0, 0⟩
  | c :: cs =>
    let r := cs.foldl boundingFold
      (c.x - c.w / 2, c.y - c.h / 2, c.x + c.w / 2, c.y + c.h / 2)
    ⟨r.1, r.2.1, r.2.2.1, r.2.2.2, r.2.2.1 - r.1, r.2.2.2 - r.2.1⟩

/-- The configuration of `useZoomPan` (defaults `minZoom 0.1`, `maxZoom 5`,
`zoomSpeed 0.1` supplied by callers explicitly here). -/
structure ZoomPanConfig where
  minZoom : ℚ
  maxZoom : ℚ
  zoomSpeed : ℚ
deriving DecidableEq

/-- The zoom/pan state held by `useZoomPan`. -/
structure ZoomPanState where
  zoom : ℚ
  panX : ℚ
  panY : ℚ
deriving DecidableEq

/-- The source function `setZoom` of useZoomPan.ts: clamp the requested zoom into range. -/
def setZoom (cfg : ZoomPanConfig) (s : ZoomPanState) (newZoom : ℚ) : ZoomPanState :=
  { s with zoom := clamp newZoom cfg.minZoom cfg.maxZoom }

/-- The source function `zoomIn` of useZoomPan.ts. -/
def zoomIn (cfg : ZoomPanConfig) (s : ZoomPanState) : ZoomPanState :=
  setZoom cfg s (s.zoom * (1 + cfg.zoomSpeed))

/-- The source function `zoomOut` of useZoomPan.ts. -/
def zoomOut (cfg : ZoomPanConfig) (s : ZoomPanState) : ZoomPanState :=
  setZoom cfg s (s.zoom * (1 - cfg.zoomSpeed))

/-- The source function `zoomToPoint` of useZoomPan.ts: clamp `zoom + deltaZoom`, then move the
pan so the cursor-anchored point stays fixed
(`newPan = cursor - (cursor - oldPan) * zoomRatio`). -/
def zoomToPoint (cfg : ZoomPanConfig) (s : ZoomPanState)
    (clientX clientY deltaZoom : ℚ) : ZoomPanState :=
  let newZoom := clamp (s.zoom + deltaZoom) cfg.minZoom cfg.maxZoom
  let zr := newZoom / s.zoom
  ⟨newZoom, clientX - (clientX - s.panX) * zr, clientY - (clientY - s.panY) * zr⟩

/-- One controller call of the kinds quantified over by the zoom-clamping
invariant. -/
inductive ZoomOp where
  | opZoomIn
  | opZoomOut
  | opSetZoom (z : ℚ)
  | opZoomToPoint (clientX clientY deltaZoom : ℚ)
deriving DecidableEq

/-- Apply one controller call to the state. -/
def applyZoomOp (cfg : ZoomPanConfig) (s : ZoomPanState) : ZoomOp → ZoomPanState
  | ZoomOp.opZoomIn => zoomIn cfg s
  | ZoomOp.opZoomOut => zoomOut cfg s
  | ZoomOp.opSetZoom z => setZoom cfg s z
  | ZoomOp.opZoomToPoint cx cy dz => zoomToPoint cfg s cx cy dz

/-- Apply a finite sequence of controller calls in order. -/
def applyZoomOps (cfg : ZoomPanConfig) (s : ZoomPanState) (ops : List ZoomOp) :
    ZoomPanState :=
  ops.foldl (applyZoomOp cfg) s

end Zonetrix

namespace Zonetrix

/-- The source function `polarToCartesian` of math.ts: degrees converted to radians for
`cos`/`sin`. -/
noncomputable def polarToCartesian (centerX centerY radius angleDegrees : ℝ) : ℝ × ℝ :=
  let angleRadians := angleDegrees * Real.pi / 180
  (centerX + radius * Real.cos angleRadians, centerY + radius * Real.sin angleRadians)

/-- The source function `calculateMinimumArcRadius` of collision-detection.ts: chord-length
solve for the smallest radius keeping adjacent seats `cellWidth +
minSpacing` apart, padded by half a cell. -/
noncomputable def calculateMinimumArcRadius (seatCount : Nat)
    (cellWidth sweepDegrees minSpacing : ℝ) : ℝ :=
  if seatCount ≤ 1 then cellWidth
  else
    let sweepRadians := sweepDegrees * Real.pi / 180
    let angularSpacing := sweepRadians / ((seatCount : ℝ) - 1)
    let minChordLength := cellWidth + minSpacing
    let minRadius := minChordLength / (2 * Real.sin (angularSpacing / 2))
    max minRadius cellWidth + cellWidth / 2

/-- The type `ArcLayoutConfig` from models.ts. -/
structure ArcLayoutConfig where
  radius : ℝ
  sweepDegrees : ℝ
  count : Nat
  cellSize : ℝ
  origin : Option (Point ℝ)
  numbering : Option NumberingConfig
  autoPreventOverlap : Option Bool
  minSpacing : Option ℝ

/-- The source function `createArcLayout` of layout-arc.ts: seats at equal angular steps across
the sweep, symmetric about the top of the circle, radius auto-adjusted when
overlap prevention is on. -/
noncomputable def createArcLayout (config : ArcLayoutConfig) : List (Cell ℝ) :=
  let origin := config.origin.getD ⟨0, 0⟩
  let minSpacing := config.minSpacing.getD 2
  let adjustedRadius :=
    if config.autoPreventOverlap.getD true ∧ 1 < config.count then
      max config.radius
        (calculateMinimumArcRadius config.count config.cellSize config.sweepDegrees minSpacing)
    else config.radius
  let startAngle := -90 - config.sweepDegrees / 2
  let angleStep := if 1 < config.count then config.sweepDegrees / ((config.count : ℝ) - 1) else 0
  (List.range config.count).map fun (i : Nat) =>
    let angle := startAngle + (i : ℝ) * angleStep
    let pos := polarToCartesian origin.x origin.y adjustedRadius angle
    { id := ⟨none, none, none, some i⟩
      kind := CellKind.seat
      x := pos.1
      y := pos.2
      w := config.cellSize
      h := config.cellSize
      rotation := some (angle + 90)
      meta := some ⟨some (generateAngularLabel i config.numbering none),
        none, none, none, some CellStatus.available⟩ }

/-- The type `CircleLayoutConfig` from models.ts. -/
structure CircleLayoutConfig where
  radius : ℝ
  count : Nat
  cellSize : ℝ
  origin : Option (Point ℝ)
  numbering : Option NumberingConfig
  autoPreventOverlap : Option Bool
  minSpacing : Option ℝ

/-- The source function `createCircleLayout` of layout-circle.ts: a 360-degree arc. -/
noncomputable def createCircleLayout (config : CircleLayoutConfig) : List (Cell ℝ) :=
  createArcLayout ⟨config.radius, 360, config.count, config.cellSize, config.origin,
    config.numbering, config.autoPreventOverlap, config.minSpacing⟩

/-! Helper lemmas -/

/-- The source function `rectanglesIntersect` is symmetric: the four half-open tests swap in
pairs under exchanging the rectangles. -/
theorem rectanglesIntersect_comm (r1 r2 : Rectangle) :
    rectanglesIntersect r1 r2 = rectanglesIntersect r2 r1 := by
  unfold rectanglesIntersect
  congr 1
  ac_rfl

/-- The source function `clamp` lands in `[lo, hi]` whenever `lo ≤ hi`. -/
theorem clamp_mem_Icc {lo hi : ℚ} (v : ℚ) (h : lo ≤ hi) :
    lo ≤ clamp v lo hi ∧ clamp v lo hi ≤ hi := by
  unfold clamp
  exact ⟨le_min (le_max_right v lo) h, min_le_right _ _⟩

/-- Length of a row-major `range`/`bind`/`map` generation. -/
theorem range_bind_map_length {α : Type} (R C : Nat) (f : Nat → Nat → α) :
    ((List.range R).flatMap fun i => (List.range C).map (f i)).length = R * C := by
  induction R with
  | zero => simp
  | succ n ih =>
    rw [List.range_succ, List.flatMap_append, List.length_append, ih]
    simp [Nat.succ_mul]

/-- Element lookup in a row-major `range`/`bind`/`map` generation. -/
theorem range_bind_map_getElem? {α : Type} {R C r c : Nat} (f : Nat → Nat → α)
    (hr : r < R) (hc : c < C) :
    ((List.range R).flatMap fun i => (List.range C).map (f i))[r * C + c]? = some (f r c) := by
  induction R with
  | zero => omega
  | succ n ih =>
    rw [List.range_succ, List.flatMap_append]
    rcases Nat.lt_or_ge r n with h | h
    · have hlen : r * C + c <
          ((List.range n).flatMap fun i => (List.range C).map (f i)).length := by
        rw [range_bind_map_length]
        calc r * C + c < r * C + C := by omega
          _ = (r + 1) * C := by ring
          _ ≤ n * C := Nat.mul_le_mul_right C h
      rw [List.getElem?_append, if_pos hlen]
      exact ih h
    · have hrn : r = n := by omega
      subst hrn
      have hlen : ¬ (r * C + c <
          ((List.range r).flatMap fun i => (List.range C).map (f i)).length) := by
        rw [range_bind_map_length]
        omega
      have h1 : ([r].flatMap fun i => (List.range C).map (f i)) = (List.range C).map (f r) := by
        simp
      rw [List.getElem?_append, if_neg hlen, range_bind_map_length, h1,
        Nat.add_sub_cancel_left, List.getElem?_map, List.getElem?_range hc]
      rfl

/-- A grid layout always has `rows * cols` cells. -/
theorem createGridLayout_length (cfg : GridLayoutConfig) :
    (createGridLayout cfg).length = cfg.rows * cfg.cols := by
  rw [createGridLayout]
  exact range_bind_map_length cfg.rows cfg.cols (gridCell cfg)

/-- Two-element `mergeSort` is a single comparison. -/
theorem mergeSort_pair {α : Type} (a b : α) (le : α → α → Bool) :
    [a, b].mergeSort le = if le a b then [a, b] else [b, a] := by
  rw [List.mergeSort]
  simp [List.splitInTwo, List.merge]

/-- With no placed bounds, the very first candidate offset `(0, 0)` is
accepted and a block keeps its original origin. -/
theorem findNextAvailablePosition_nil (block : SectionBlock) (minSpacing : ℚ) :
    findNextAvailablePosition block [] minSpacing = block.origin := by
  unfold findNextAvailablePosition
  rw [searchOffsets, List.find?_cons_of_pos _ (by rfl)]
  cases hb : block.origin with
  | mk ox oy => simp [hb]

/-- The function `findNextAvailablePosition` characterized by a successful search. -/
theorem findNextAvailablePosition_found (block : SectionBlock)
    (existingBounds : List Rectangle) (minSpacing : ℚ) (o : Int × Int)
    (h : searchOffsets.find? (fun o =>
      !(existingBounds.any fun e =>
        rectanglesIntersect (candidateBounds block minSpacing o) e)) = some o) :
    findNextAvailablePosition block existingBounds minSpacing =
      ⟨block.origin.x + (o.1 : ℚ), block.origin.y + (o.2 : ℚ)⟩ := by
  unfold findNextAvailablePosition
  rw [h]

/-- The function `findNextAvailablePosition` characterized by an exhausted search: the
fallback places the block far to the right. -/
theorem findNextAvailablePosition_fallback (block : SectionBlock)
    (existingBounds : List Rectangle) (minSpacing : ℚ)
    (h : searchOffsets.find? (fun o =>
      !(existingBounds.any fun e =>
        rectanglesIntersect (candidateBounds block minSpacing o) e)) = none) :
    findNextAvailablePosition block existingBounds minSpacing = ⟨5000, block.origin.y⟩ := by
  unfold findNextAvailablePosition
  rw [h]

/-- The offset `(0, -5000)` lies on the outermost search ring (top edge of
the ring at distance 5000). -/
theorem mem_searchOffsets_top : ((0 : Int), (-5000 : Int)) ∈ searchOffsets := by
  have h99 : (99 : ℕ) ∈ List.range 100 := List.mem_range.mpr (by norm_num)
  have h100 : (100 : ℕ) ∈ List.range (2 * (99 + 1) + 1) := List.mem_range.mpr (by norm_num)
  have hin : ((0 : Int), (-5000 : Int)) ∈ ringOffsets 99 := by
    simp only [ringOffsets]
    apply List.mem_append_left
    apply List.mem_append_left
    apply List.mem_append_left
    exact List.mem_map.mpr ⟨100, h100, by norm_num⟩
  rw [searchOffsets]
  exact List.mem_cons_of_mem _ (List.mem_flatMap.mpr ⟨99, h99, hin⟩)

/-- Every candidate offset of the square-ring search lies within the
5000px cap in both coordinates. -/
theorem searchOffsets_bounded :
    ∀ x y : Int, (x, y) ∈ searchOffsets →
      -5000 ≤ x ∧ x ≤ 5000 ∧ -5000 ≤ y ∧ y ≤ 5000 := by
  intro x y ho
  rw [searchOffsets] at ho
  rcases List.mem_cons.mp ho with heq | ho
  · injection heq with hx hy
    subst hx
    subst hy
    norm_num
  · obtain ⟨k, hk, hmem⟩ := List.mem_flatMap.mp ho
    have hk100 : k < 100 := List.mem_range.mp hk
    have hkZ : (k : Int) ≤ 99 := by exact_mod_cast Nat.le_of_lt_succ hk100
    simp only [ringOffsets] at hmem
    rcases List.mem_append.mp hmem with hrest | hmem4
    · rcases List.mem_append.mp hrest with hrest2 | hmem3
      · rcases List.mem_append.mp hrest2 with hmem1 | hmem2
        · obtain ⟨i, hi, heq⟩ := List.mem_map.mp hmem1
          have hiZ : (i : Int) < 2 * ((k : Int) + 1) + 1 := by
            exact_mod_cast List.mem_range.mp hi
          injection heq with hx hy
          subst hx
          subst hy
          exact ⟨by omega, by omega, by omega, by omega⟩
        · obtain ⟨i, hi, heq⟩ := List.mem_map.mp hmem2
          have hiZ : (i : Int) < 2 * ((k : Int) + 1) := by
            exact_mod_cast List.mem_range.mp hi
          injection heq with hx hy
          subst hx
          subst hy
          exact ⟨by omega, by omega, by omega, by omega⟩
      · obtain ⟨i, hi, heq⟩ := List.mem_map.mp hmem3
        have hiZ : (i : Int) < 2 * ((k : Int) + 1) := by
          exact_mod_cast List.mem_range.mp hi
        injection heq with hx hy
        subst hx
        subst hy
        exact ⟨by omega, by omega, by omega, by omega⟩
    · obtain ⟨i, hi, heq⟩ := List.mem_map.mp hmem4
      have hiZ : (i : Int) < 2 * (k : Int) + 1 := by
        exact_mod_cast List.mem_range.mp hi
      injection heq with hx hy
      subst hx
      subst hy
      exact ⟨by omega, by omega, by omega, by omega⟩

/-- Relocating a block by an offset and then taking its inflated bounds is
the same as the candidate bounds the search tested. -/
theorem calculateSectionBounds_offset (s : SectionBlock) (o : Int × Int) :
    calculateSectionBounds
      { s with origin := ⟨s.origin.x + (o.1 : ℚ), s.origin.y + (o.2 : ℚ)⟩ } 20 =
    candidateBounds s 20 o := by
  simp only [calculateSectionBounds, candidateBounds, Rectangle.mk.injEq]
  refine ⟨by ring, by ring, by ring, by ring⟩

/-- A rectangle whose top edge is below another's bottom edge does not
intersect it (third disjunct of the half-open test). -/
theorem rectanglesIntersect_eq_false_of_y_le (r1 r2 : Rectangle)
    (h : r1.y + r1.height ≤ r2.y) : rectanglesIntersect r1 r2 = false := by
  simp [rectanglesIntersect, h]

/-- Overlap detection over exactly two blocks reduces to the single
pairwise test. -/
theorem detectSectionOverlaps_pair (a b : SectionBlock) (s : ℚ) :
    (detectSectionOverlaps [a, b] s).hasOverlaps = sectionsOverlap a b s := by
  cases h : sectionsOverlap a b s <;>
    simp [detectSectionOverlaps, orderedPairs, h]

/-- Compact placement of two blocks with a common origin ends overlap-free
whenever the block placed second is at most 4980px tall: the offset
`(0, -5000)` on the outermost search ring always clears the first block,
so the search accepts some offset, and any accepted offset is
non-intersecting by construction. -/
theorem compactPlace_pair_no_overlap (f s : SectionBlock)
    (ho : f.origin = s.origin)
    (hs : (s.rows : ℚ) * (s.cellSize + s.gap.getD 0) ≤ 4980) :
    (detectSectionOverlaps (compactPlace [] 20 [f, s]) 20).hasOverlaps = false := by
  have hposf := findNextAvailablePosition_nil f 20
  set f' : SectionBlock := { f with origin := findNextAvailablePosition f [] 20 } with hf'
  have hforig : f'.origin = f.origin := hposf
  set P : Int × Int → Bool := fun o =>
    !([calculateSectionBounds f' 20].any fun e =>
      rectanglesIntersect (candidateBounds s 20 o) e) with hP
  have hPtop : P (0, -5000) = true := by
    rw [hP]
    simp only [List.any_cons, List.any_nil, Bool.or_false]
    rw [rectanglesIntersect_eq_false_of_y_le]
    · rfl
    · simp only [candidateBounds, calculateSectionBounds]
      rw [hposf, ho]
      push_cast
      linarith
  obtain ⟨o, hfo⟩ : ∃ o, searchOffsets.find? P = some o :=
    Option.isSome_iff_exists.mp
      (List.find?_isSome.mpr ⟨(0, -5000), mem_searchOffsets_top, hPtop⟩)
  have hPo : P o = true := List.find?_some hfo
  have hfinds : findNextAvailablePosition s [calculateSectionBounds f' 20] 20 =
      ⟨s.origin.x + (o.1 : ℚ), s.origin.y + (o.2 : ℚ)⟩ :=
    findNextAvailablePosition_found s [calculateSectionBounds f' 20] 20 o hfo
  have hlist : compactPlace [] 20 [f, s] =
      [f', { s with origin := ⟨s.origin.x + (o.1 : ℚ), s.origin.y + (o.2 : ℚ)⟩ }] := by
    simp only [compactPlace, List.nil_append, hfinds]
  rw [hlist, detectSectionOverlaps_pair]
  unfold sectionsOverlap
  rw [calculateSectionBounds_offset, rectanglesIntersect_comm]
  rw [hP] at hPo
  simp only [List.any_cons, List.any_nil, Bool.or_false, Bool.not_eq_true'] at hPo
  exact hPo

/-- Strict overlap on both axes makes the half-open test positive. -/
theorem rectanglesIntersect_eq_true_of (r1 r2 : Rectangle)
    (h1 : r2.x < r1.x + r1.width) (h2 : r1.x < r2.x + r2.width)
    (h3 : r2.y < r1.y + r1.height) (h4 : r1.y < r2.y + r2.height) :
    rectanglesIntersect r1 r2 = true := by
  simp only [rectanglesIntersect, Bool.or_eq_false_iff, Bool.not_eq_eq_eq_not, Bool.not_true,
    decide_eq_false_iff_not, not_le]
  exact ⟨⟨⟨h1, h2⟩, h3⟩, h4⟩

/-- The source function `autoAdjustSectionPositions` on a two-block list under the compact
strategy: no-op without overlaps, otherwise compact placement. -/
theorem autoAdjust_pair_compact (a b : SectionBlock) :
    autoAdjustSectionPositions [a, b] 20 ⟨some SectionStrategy.compact, none, none⟩ =
    if !(detectSectionOverlaps [a, b] 20).hasOverlaps then [a, b]
    else compactLayoutStrategy [a, b] 20 := by
  unfold autoAdjustSectionPositions
  rfl

/-! Claim theorems -/

/-- C9: `calculateBoundingBox` applied to the empty cell list returns the
degenerate zero-size box at the origin, as a normal result. -/
theorem calculateBoundingBox_empty_zero :
    calculateBoundingBox [] = ⟨0, 0, 0, 0, 0, 0⟩ := rfl

/-- C8: `rectanglesIntersect` is symmetric for all rectangles, and two
rectangles sharing a boundary edge (any of the four coordinate contacts)
do not intersect: the interval test is half-open. -/
theorem rectanglesIntersect_symm_and_halfOpen :
    (∀ r1 r2 : Rectangle, rectanglesIntersect r1 r2 = rectanglesIntersect r2 r1) ∧
    (∀ r1 r2 : Rectangle,
      (r1.x + r1.width = r2.x ∨ r2.x + r2.width = r1.x ∨
       r1.y + r1.height = r2.y ∨ r2.y + r2.height = r1.y) →
      rectanglesIntersect r1 r2 = false) := by
  constructor
  · exact rectanglesIntersect_comm
  · intro r1 r2 h
    unfold rectanglesIntersect
    rcases h with h | h | h | h <;> simp [h]

/-- Witness for C8: the unit squares at x-offsets 0 and 1 share only the
vertical edge `x = 1` and are reported as non-intersecting. -/
theorem rectanglesIntersect_halfOpen_witness :
    ((⟨0, 0, 1, 1⟩ : Rectangle).x + (⟨0, 0, 1, 1⟩ : Rectangle).width
        = (⟨1, 0, 1, 1⟩ : Rectangle).x) ∧
    rectanglesIntersect ⟨0, 0, 1, 1⟩ ⟨1, 0, 1, 1⟩ = false :=
  ⟨by norm_num,
   rectanglesIntersect_symm_and_halfOpen.2 ⟨0, 0, 1, 1⟩ ⟨1, 0, 1, 1⟩ (Or.inl (by norm_num))⟩

/-- C3: `zoomToPoint` keeps the world point under the cursor fixed: the
inverse transform of the cursor before and after the zoom agree, whenever
the current zoom lies in `[minZoom, maxZoom]` with `0 < minZoom`. -/
theorem zoomToPoint_fixes_cursor_world_point (cfg : ZoomPanConfig) (s : ZoomPanState)
    (clientX clientY deltaZoom : ℚ)
    (hmin : 0 < cfg.minZoom) (hlo : cfg.minZoom ≤ s.zoom) (hhi : s.zoom ≤ cfg.maxZoom) :
    inverseTransformPoint clientX clientY
      (zoomToPoint cfg s clientX clientY deltaZoom).zoom
      (zoomToPoint cfg s clientX clientY deltaZoom).panX
      (zoomToPoint cfg s clientX clientY deltaZoom).panY =
    inverseTransformPoint clientX clientY s.zoom s.panX s.panY := by
  have hz : 0 < s.zoom := lt_of_lt_of_le hmin hlo
  have hminmax : cfg.minZoom ≤ cfg.maxZoom := le_trans hlo hhi
  have hnz : 0 < clamp (s.zoom + deltaZoom) cfg.minZoom cfg.maxZoom :=
    lt_of_lt_of_le hmin (clamp_mem_Icc _ hminmax).1
  unfold zoomToPoint inverseTransformPoint
  simp only [Prod.mk.injEq]
  refine ⟨?_, ?_⟩ <;>
  · field_simp
    ring

/-- Witness for C3 at a concrete state and cursor. -/
theorem zoomToPoint_fixes_cursor_world_point_witness :
    (0 : ℚ) < 1/2 ∧ (1 : ℚ)/2 ≤ 2 ∧ (2 : ℚ) ≤ 4 ∧
    inverseTransformPoint 7 9
      (zoomToPoint ⟨1/2, 4, 1/10⟩ ⟨2, 3, 5⟩ 7 9 1).zoom
      (zoomToPoint ⟨1/2, 4, 1/10⟩ ⟨2, 3, 5⟩ 7 9 1).panX
      (zoomToPoint ⟨1/2, 4, 1/10⟩ ⟨2, 3, 5⟩ 7 9 1).panY =
    inverseTransformPoint 7 9 2 3 5 :=
  ⟨by norm_num, by norm_num, by norm_num,
   zoomToPoint_fixes_cursor_world_point ⟨1/2, 4, 1/10⟩ ⟨2, 3, 5⟩ 7 9 1
     (by norm_num) (by norm_num) (by norm_num)⟩

/-- Every controller call clamps the zoom into `[minZoom, maxZoom]`. -/
theorem applyZoomOp_zoom_mem (cfg : ZoomPanConfig) (s : ZoomPanState) (op : ZoomOp)
    (h : cfg.minZoom ≤ cfg.maxZoom) :
    cfg.minZoom ≤ (applyZoomOp cfg s op).zoom ∧
    (applyZoomOp cfg s op).zoom ≤ cfg.maxZoom := by
  cases op <;>
    simp only [applyZoomOp, zoomIn, zoomOut, setZoom, zoomToPoint] <;>
    exact clamp_mem_Icc _ h

/-- C4: for every configuration with `0 < minZoom ≤ maxZoom` and a starting
zoom in range, after every finite sequence of `zoomIn`/`zoomOut`/`setZoom`/
`zoomToPoint` calls the zoom stays in `[minZoom, maxZoom]`. -/
theorem zoom_clamped_over_all_call_sequences (cfg : ZoomPanConfig) (s : ZoomPanState)
    (ops : List ZoomOp) (hmin : 0 < cfg.minZoom) (hmm : cfg.minZoom ≤ cfg.maxZoom)
    (hlo : cfg.minZoom ≤ s.zoom) (hhi : s.zoom ≤ cfg.maxZoom) :
    cfg.minZoom ≤ (applyZoomOps cfg s ops).zoom ∧
    (applyZoomOps cfg s ops).zoom ≤ cfg.maxZoom := by
  induction ops generalizing s with
  | nil => exact ⟨hlo, hhi⟩
  | cons op rest ih =>
    have hstep := applyZoomOp_zoom_mem cfg s op hmm
    exact ih (applyZoomOp cfg s op) hstep.1 hstep.2

/-- C6: in a snake-numbered grid, the cell generated at `(row, col)` (found
at row-major position `row * cols + col`) carries id `(row, col)` and the
label obtained by prepending the optional prefix to the decimal rendering
of `row * cols + col + startIndex` on even rows and of
`row * cols + (cols - 1 - col) + startIndex` on odd rows. -/
theorem snake_label_formula (cfg : GridLayoutConfig) (row col : Nat)
    (hscheme : (cfg.numbering.map NumberingConfig.scheme).getD NumberingScheme.rowCol
      = NumberingScheme.snake)
    (hr : row < cfg.rows) (hc : col < cfg.cols) :
    (createGridLayout cfg)[row * cfg.cols + col]?.map
      (fun c => (c.id.row, c.id.col, c.meta.map CellMeta.label)) =
    some (some row, some col, some (some ((cfg.labelPfx.getD "") ++ toString (
      if row % 2 = 0 then
        (row : Int) * (cfg.cols : Int) + (col : Int) +
          ((cfg.numbering.bind NumberingConfig.startIndex).getD 1)
      else
        (row : Int) * (cfg.cols : Int) + ((cfg.cols : Int) - 1 - (col : Int)) +
          ((cfg.numbering.bind NumberingConfig.startIndex).getD 1))))) := by
  rw [createGridLayout, range_bind_map_getElem? (gridCell cfg) hr hc]
  simp only [Option.map_some', gridCell, hscheme, if_pos rfl, generateSnakeLabelWithCols]
  cases h : cfg.labelPfx with
  | none => simp
  | some p => simp

unseal Rat.add Rat.mul Rat.sub Rat.inv Nat.gcd List.merge List.mergeSort in
/-- C1 counterexample: two fully overlapping blocks, the smaller one first
in the input. The compact auto-adjustment sorts by area descending, and
`createSectionsLayout` concatenates the per-block cells in that
post-adjustment order, so the first cell carries the second input block's
section id rather than the first's: the output is
`[B, B, B, B, A]`, not the claimed `[A, B, B, B, B]`. -/
theorem sections_input_order_counterexample :
    ((createSectionsLayout ⟨[⟨"A", none, ⟨0, 0⟩, 1, 1, 10, none, none, none, none, none⟩,
        ⟨"B", none, ⟨0, 0⟩, 2, 2, 10, none, none, none, none, none⟩],
        none, none, none, none⟩).map fun c => c.id.sectionId) ≠
      [some "A", some "B", some "B", some "B", some "B"] := by
  decide

/-- C1 amended: the per-block cell arrays of `createSectionsLayout` are
concatenated in the post-adjustment block order (for the compact strategy,
area-descending placement order), not the original input order: the i-th
contiguous group of `rows_i * cols_i` cells carries the section id of the
i-th block of the adjusted block list. -/
theorem sections_concat_in_postAdjustment_order (cfg : SectionsLayoutConfig) :
    (createSectionsLayout cfg).map (fun c => c.id.sectionId) =
    (adjustedSectionBlocks cfg).flatMap fun b =>
      List.replicate (b.rows * b.cols) (some b.id) := by
  rw [createSectionsLayout, List.map_flatMap]
  apply congrArg
  funext b
  rw [List.map_map]
  have hfun : ((fun c : Cell ℚ => c.id.sectionId) ∘ fun c : Cell ℚ =>
      { c with id := ⟨some b.id, c.id.row, c.id.col, c.id.index⟩ }) =
      fun _ : Cell ℚ => some b.id := by
    funext c
    rfl
  rw [hfun, List.map_const', createGridLayout_length]

/-- Witness for C6: a snake grid with two rows and three columns; the cell
at `(1, 1)` (position 4) is labeled with index `1*3 + (3-1-1) + 1 = 5`. -/
theorem snake_label_formula_witness :
    ((⟨2, 3, 10, none, none, some ⟨NumberingScheme.snake, none, none, none⟩,
        some "P", none, none⟩ : GridLayoutConfig).numbering.map
      NumberingConfig.scheme).getD NumberingScheme.rowCol = NumberingScheme.snake ∧
    (1 : Nat) < 2 ∧ (1 : Nat) < 3 ∧
    (createGridLayout ⟨2, 3, 10, none, none,
        some ⟨NumberingScheme.snake, none, none, none⟩, some "P", none, none⟩)[1 * 3 + 1]?.map
      (fun c => (c.id.row, c.id.col, c.meta.map CellMeta.label)) =
    some (some 1, some 1, some (some ("P" ++ toString (
      if (1 : Nat) % 2 = 0 then (1 : Int) * 3 + 1 + 1 else (1 : Int) * 3 + (3 - 1 - 1) + 1)))) :=
  ⟨rfl, by decide, by decide,
   snake_label_formula ⟨2, 3, 10, none, none,
     some ⟨NumberingScheme.snake, none, none, none⟩, some "P", none, none⟩ 1 1 rfl
     (by decide) (by decide)⟩

/-- C7: a grid layout has exactly `rows * cols` cells and the `(row, col)`
id pairs cover `[0, rows) × [0, cols)` exactly once each (each pair in
range occurs, and the pair list has no duplicates). -/
theorem grid_count_and_coverage (cfg : GridLayoutConfig) :
    (createGridLayout cfg).length = cfg.rows * cfg.cols ∧
    (∀ r c : Nat,
      (((some r, some c) : Option Nat × Option Nat) ∈
        (createGridLayout cfg).map fun cell => (cell.id.row, cell.id.col)) ↔
      r < cfg.rows ∧ c < cfg.cols) ∧
    ((createGridLayout cfg).map fun cell => (cell.id.row, cell.id.col)).Nodup := by
  have hkeys : ((createGridLayout cfg).map fun cell => (cell.id.row, cell.id.col)) =
      (List.range cfg.rows).flatMap fun r =>
        (List.range cfg.cols).map fun c => ((some r : Option Nat), (some c : Option Nat)) := by
    rw [createGridLayout, List.map_flatMap]
    apply congrArg
    funext a
    rw [List.map_map]
    have hfun : ((fun cell : Cell ℚ => (cell.id.row, cell.id.col)) ∘ gridCell cfg a) =
        fun c : Nat => ((some a : Option Nat), (some c : Option Nat)) := by
      funext c
      simp [gridCell, Function.comp]
    rw [hfun]
  refine ⟨?_, ?_, ?_⟩
  · rw [createGridLayout]
    exact range_bind_map_length cfg.rows cfg.cols (gridCell cfg)
  · intro r c
    rw [hkeys]
    simp only [List.mem_flatMap, List.mem_map, List.mem_range]
    constructor
    · rintro ⟨a, ha, b, hb, heq⟩
      simp only [Prod.mk.injEq, Option.some.injEq] at heq
      obtain ⟨h1, h2⟩ := heq
      subst h1
      subst h2
      exact ⟨ha, hb⟩
    · rintro ⟨h1, h2⟩
      exact ⟨r, h1, c, h2, rfl⟩
  · rw [hkeys]
    refine List.nodup_bind.mpr ⟨?_, ?_⟩
    · intro x _
      exact ((List.nodup_range cfg.cols).map fun u v huv => by simpa using huv)
    · refine List.Pairwise.imp ?_ (List.pairwise_lt_range cfg.rows)
      intro a b hab x hxa hxb
      simp only [List.mem_map, List.mem_range] at hxa hxb
      obtain ⟨c1, _, rfl⟩ := hxa
      obtain ⟨c2, _, h2⟩ := hxb
      simp only [Prod.mk.injEq, Option.some.injEq] at h2
      omega

/-- Witness for C4: a concrete config, start state and call sequence. -/
theorem zoom_clamped_over_all_call_sequences_witness :
    (0 : ℚ) < 1/2 ∧ (1 : ℚ)/2 ≤ 3 ∧ (1 : ℚ)/2 ≤ 1 ∧ (1 : ℚ) ≤ 3 ∧
    ((1 : ℚ)/2 ≤ (applyZoomOps ⟨1/2, 3, 1/10⟩ ⟨1, 0, 0⟩
        [ZoomOp.opZoomIn, ZoomOp.opSetZoom 100, ZoomOp.opZoomToPoint 5 5 (-10),
         ZoomOp.opZoomOut]).zoom ∧
     (applyZoomOps ⟨1/2, 3, 1/10⟩ ⟨1, 0, 0⟩
        [ZoomOp.opZoomIn, ZoomOp.opSetZoom 100, ZoomOp.opZoomToPoint 5 5 (-10),
         ZoomOp.opZoomOut]).zoom ≤ 3) :=
  ⟨by norm_num, by norm_num, by norm_num, by norm_num,
   zoom_clamped_over_all_call_sequences ⟨1/2, 3, 1/10⟩ ⟨1, 0, 0⟩
     [ZoomOp.opZoomIn, ZoomOp.opSetZoom 100, ZoomOp.opZoomToPoint 5 5 (-10),
      ZoomOp.opZoomOut]
     (by norm_num) (by norm_num) (by norm_num) (by norm_num)⟩

/-- C5 counterexample: two identical 100 x 100 blocks of 50px cells
(5000px on each side) at the same origin. Every candidate offset is capped
at 5000px, which cannot clear a 5020px inflated footprint, so the search
falls back to `x = 5000`, which still overlaps the first block: the
compact strategy returns blocks that `detectSectionOverlaps` still
reports as overlapping. -/
theorem compact_adjust_leaves_overlap_counterexample :
    (detectSectionOverlaps (autoAdjustSectionPositions
      [⟨"H1", none, ⟨0, 0⟩, 100, 100, 50, none, none, none, none, none⟩,
       ⟨"H2", none, ⟨0, 0⟩, 100, 100, 50, none, none, none, none, none⟩] 20
      ⟨some SectionStrategy.compact, none, none⟩) 20).hasOverlaps = true := by
  set H1 : SectionBlock := ⟨"H1", none, ⟨0, 0⟩, 100, 100, 50, none, none, none, none, none⟩
    with hH1
  set H2 : SectionBlock := ⟨"H2", none, ⟨0, 0⟩, 100, 100, 50, none, none, none, none, none⟩
    with hH2
  have hb1 : calculateSectionBounds H1 20 = ⟨-10, -10, 5020, 5020⟩ := by
    simp only [hH1, calculateSectionBounds, Rectangle.mk.injEq]
    norm_num
  have hb2 : calculateSectionBounds H2 20 = ⟨-10, -10, 5020, 5020⟩ := by
    simp only [hH2, calculateSectionBounds, Rectangle.mk.injEq]
    norm_num
  have hov : (detectSectionOverlaps [H1, H2] 20).hasOverlaps = true := by
    rw [detectSectionOverlaps_pair]
    unfold sectionsOverlap
    rw [hb1, hb2]
    apply rectanglesIntersect_eq_true_of <;> norm_num
  rw [autoAdjust_pair_compact, hov]
  simp only [Bool.not_true, Bool.false_eq_true, if_false]
  unfold compactLayoutStrategy
  have harea : sectionArea H2 = sectionArea H1 := by
    simp [sectionArea, hH1, hH2]
  rw [if_neg (by simp), mergeSort_pair, if_pos (by rw [harea]; exact decide_eq_true le_rfl)]
  have hposf := findNextAvailablePosition_nil H1 20
  set H1' : SectionBlock := { H1 with origin := findNextAvailablePosition H1 [] 20 } with hH1'
  have hbounds1 : calculateSectionBounds H1' 20 = ⟨-10, -10, 5020, 5020⟩ := by
    rw [hH1']
    simp only [calculateSectionBounds, hposf, Rectangle.mk.injEq]
    norm_num
  have hnone : searchOffsets.find? (fun o =>
      !([calculateSectionBounds H1' 20].any fun e =>
        rectanglesIntersect (candidateBounds H2 20 o) e)) = none := by
    apply List.find?_eq_none.mpr
    intro o ho
    obtain ⟨x, y⟩ := o
    obtain ⟨hx1, hx2, hy1, hy2⟩ := searchOffsets_bounded x y ho
    have hx1Q : (-5000 : ℚ) ≤ (x : ℚ) := by exact_mod_cast hx1
    have hx2Q : ((x : ℚ)) ≤ 5000 := by exact_mod_cast hx2
    have hy1Q : (-5000 : ℚ) ≤ (y : ℚ) := by exact_mod_cast hy1
    have hy2Q : ((y : ℚ)) ≤ 5000 := by exact_mod_cast hy2
    have hcand : candidateBounds H2 20 (x, y) =
        ⟨(x : ℚ) - 10, (y : ℚ) - 10, 5020, 5020⟩ := by
      simp only [candidateBounds, calculateSectionBounds, hH2, Rectangle.mk.injEq]
      norm_num
    have hint : rectanglesIntersect ⟨(x : ℚ) - 10, (y : ℚ) - 10, 5020, 5020⟩
        ⟨-10, -10, 5020, 5020⟩ = true := by
      apply rectanglesIntersect_eq_true_of <;> simp <;> linarith
    simp only [List.any_cons, List.any_nil, Bool.or_false, hbounds1, hcand, hint,
      Bool.not_true, Bool.false_eq_true, not_false_eq_true]
  have hfind2 : findNextAvailablePosition H2 [calculateSectionBounds H1' 20] 20 =
      ⟨5000, H2.origin.y⟩ :=
    findNextAvailablePosition_fallback H2 [calculateSectionBounds H1' 20] 20 hnone
  have hlist : compactPlace [] 20 [H1, H2] =
      [H1', { H2 with origin := ⟨5000, H2.origin.y⟩ }] := by
    simp only [compactPlace, List.nil_append, hfind2]
  rw [hlist, detectSectionOverlaps_pair]
  unfold sectionsOverlap
  rw [hbounds1]
  have hb2' : calculateSectionBounds { H2 with origin := (⟨5000, H2.origin.y⟩ : Point ℚ) } 20 =
      ⟨4990, -10, 5020, 5020⟩ := by
    simp only [calculateSectionBounds, hH2, Rectangle.mk.injEq]
    norm_num
  rw [hb2']
  apply rectanglesIntersect_eq_true_of <;> norm_num

/-- C5 amended: `autoAdjustSectionPositions` with the compact strategy and
the default 20px spacing resolves two fully overlapping blocks whenever
each block's footprint height `rows * (cellSize + gap)` is at most 4980px
(so that the 5000px-capped ring search can clear the first block); the
counterexample shows the claim fails without such a bound. -/
theorem compact_adjust_resolves_identical_origin_blocks (b1 b2 : SectionBlock)
    (ho : b1.origin = b2.origin)
    (hh1 : (b1.rows : ℚ) * (b1.cellSize + b1.gap.getD 0) ≤ 4980)
    (hh2 : (b2.rows : ℚ) * (b2.cellSize + b2.gap.getD 0) ≤ 4980) :
    (detectSectionOverlaps (autoAdjustSectionPositions [b1, b2] 20
      ⟨some SectionStrategy.compact, none, none⟩) 20).hasOverlaps = false := by
  rw [autoAdjust_pair_compact]
  by_cases hov : (detectSectionOverlaps [b1, b2] 20).hasOverlaps = true
  · rw [hov]
    simp only [Bool.not_true, Bool.false_eq_true, if_false]
    unfold compactLayoutStrategy
    rw [if_neg (by simp), mergeSort_pair]
    by_cases hcmp : decide (sectionArea b2 ≤ sectionArea b1) = true
    · rw [if_pos hcmp]
      exact compactPlace_pair_no_overlap b1 b2 ho hh2
    · rw [if_neg hcmp]
      exact compactPlace_pair_no_overlap b2 b1 ho.symm hh1
  · have hfalse : (detectSectionOverlaps [b1, b2] 20).hasOverlaps = false :=
      Bool.eq_false_iff.mpr hov
    rw [hfalse]
    simp only [Bool.not_false, if_true]
    exact hfalse

/-- Witness for C5 amended: two 2 x 3 blocks of 10px cells at the same
origin are separated by the compact strategy. -/
theorem compact_adjust_resolves_identical_origin_blocks_witness :
    (⟨"S1", none, ⟨5, 7⟩, 2, 3, 10, none, none, none, none, none⟩ :
      SectionBlock).origin =
      (⟨"S2", none, ⟨5, 7⟩, 2, 3, 10, none, none, none, none, none⟩ :
        SectionBlock).origin ∧
    (((⟨"S1", none, ⟨5, 7⟩, 2, 3, 10, none, none, none, none, none⟩ :
      SectionBlock).rows : ℚ) * (10 + (none : Option ℚ).getD 0) ≤ 4980) ∧
    (((⟨"S2", none, ⟨5, 7⟩, 2, 3, 10, none, none, none, none, none⟩ :
      SectionBlock).rows : ℚ) * (10 + (none : Option ℚ).getD 0) ≤ 4980) ∧
    (detectSectionOverlaps (autoAdjustSectionPositions
      [⟨"S1", none, ⟨5, 7⟩, 2, 3, 10, none, none, none, none, none⟩,
       ⟨"S2", none, ⟨5, 7⟩, 2, 3, 10, none, none, none, none, none⟩] 20
      ⟨some SectionStrategy.compact, none, none⟩) 20).hasOverlaps = false :=
  ⟨rfl, by norm_num, by norm_num,
   compact_adjust_resolves_identical_origin_blocks
     ⟨"S1", none, ⟨5, 7⟩, 2, 3, 10, none, none, none, none, none⟩
     ⟨"S2", none, ⟨5, 7⟩, 2, 3, 10, none, none, none, none, none⟩
     rfl (by norm_num) (by norm_num)⟩

/-- C10: in a circle layout with at least two seats, the first seat
(index 0) and the last seat (index `count - 1`) are placed at exactly the
same position: the 360-degree sweep with `angleStep = 360 / (count - 1)`
puts their angles exactly 360 degrees apart. -/
theorem circle_first_last_coincide (cfg : CircleLayoutConfig) (h : 2 ≤ cfg.count) :
    ((createCircleLayout cfg)[0]?.map fun c => (c.x, c.y)) =
    ((createCircleLayout cfg)[cfg.count - 1]?.map fun c => (c.x, c.y)) := by
  have h0 : 0 < cfg.count := by omega
  have hlast : cfg.count - 1 < cfg.count := by omega
  have h1lt : 1 < cfg.count := by omega
  unfold createCircleLayout createArcLayout
  simp only [List.getElem?_map, List.getElem?_range h0, List.getElem?_range hlast,
    Option.map_some', if_pos h1lt]
  have hne : (cfg.count : ℝ) - 1 ≠ 0 := by
    have : (2 : ℝ) ≤ (cfg.count : ℝ) := by exact_mod_cast h
    linarith
  have hcast : ((cfg.count - 1 : ℕ) : ℝ) = (cfg.count : ℝ) - 1 := by
    push_cast [Nat.cast_sub (by omega : 1 ≤ cfg.count)]
    ring
  have hangle : (-90 - (360 : ℝ) / 2 + ((cfg.count - 1 : ℕ) : ℝ) * (360 / ((cfg.count : ℝ) - 1)))
      = (-90 - (360 : ℝ) / 2 + ((0 : ℕ) : ℝ) * (360 / ((cfg.count : ℝ) - 1))) + 360 := by
    rw [hcast]
    field_simp
  simp only [polarToCartesian, hangle]
  have harg : ∀ a : ℝ, (a + 360) * Real.pi / 180 = a * Real.pi / 180 + 2 * Real.pi := by
    intro a
    ring
  refine congrArg some ?_
  rw [Prod.mk.injEq]
  constructor
  · rw [harg, Real.cos_add_two_pi]
  · rw [harg, Real.sin_add_two_pi]

/-- Witness for C10 at a concrete two-seat circle configuration. -/
theorem circle_first_last_coincide_witness :
    2 ≤ (⟨50, 2, 10, none, none, none, none⟩ : CircleLayoutConfig).count ∧
    ((createCircleLayout ⟨50, 2, 10, none, none, none, none⟩)[0]?.map fun c => (c.x, c.y)) =
    ((createCircleLayout ⟨50, 2, 10, none, none, none, none⟩)[(⟨50, 2, 10, none, none,
        none, none⟩ : CircleLayoutConfig).count - 1]?.map fun c => (c.x, c.y)) :=
  ⟨by decide, circle_first_last_coincide ⟨50, 2, 10, none, none, none, none⟩ (by decide)⟩

/-- C2 counterexample: with `cellWidth = 10`, `sweepDegrees = 300` and
`minSpacing = 90`, the minimum arc radius for three seats is strictly
smaller than for two seats: between two seats the half-angle is 150
degrees (sine one half), between three it is 75 degrees (sine above one
half), so the chord solve gives a smaller radius for more seats. -/
theorem arcRadius_not_monotone_counterexample :
    calculateMinimumArcRadius 3 10 300 90 < calculateMinimumArcRadius 2 10 300 90 := by
  unfold calculateMinimumArcRadius
  norm_num
  have hpi := Real.pi_pos
  have e1 : (300 : ℝ) * Real.pi / 180 / 2 = Real.pi - Real.pi / 6 := by ring
  have e2 : (300 : ℝ) * Real.pi / 180 / 2 / 2 = 5 * Real.pi / 12 := by ring
  rw [e2, e1, Real.sin_pi_sub, Real.sin_pi_div_six]
  have hsin3 : 1 / 2 < Real.sin (5 * Real.pi / 12) := by
    rw [show (1 : ℝ) / 2 = Real.sin (Real.pi / 6) from Real.sin_pi_div_six.symm]
    apply Real.strictMonoOn_sin
    · constructor
      · linarith
      · linarith
    · constructor
      · linarith
      · linarith
    · linarith
  have hlt : (100 : ℝ) / (2 * Real.sin (5 * Real.pi / 12)) < 100 := by
    have hden : 1 < 2 * Real.sin (5 * Real.pi / 12) := by linarith
    exact div_lt_self (by norm_num) hden
  constructor
  · rw [show (2 : ℝ) * (1 / 2) = 1 from by norm_num, div_one]
    exact hlt
  · rw [show (2 : ℝ) * (1 / 2) = 1 from by norm_num, div_one]
    norm_num

/-- C2 amended: for a fixed `cellWidth > 0`, `minSpacing ≥ 0` and sweep in
`(0, 180]` degrees (so that the half-angle between adjacent seats stays in
the increasing range of the sine), `calculateMinimumArcRadius` is
monotonically non-decreasing in the seat count. (For sweeps above 180
degrees the two-seat half-angle passes 90 degrees and monotonicity fails,
as the counterexample shows.) -/
theorem calculateMinimumArcRadius_mono_of_sweep_le_180
    (cellWidth sweepDegrees minSpacing : ℝ) (n m : Nat)
    (hw : 0 < cellWidth) (hsp : 0 ≤ minSpacing)
    (hs0 : 0 < sweepDegrees) (hs1 : sweepDegrees ≤ 180)
    (h1 : 1 ≤ n) (hnm : n ≤ m) :
    calculateMinimumArcRadius n cellWidth sweepDegrees minSpacing ≤
    calculateMinimumArcRadius m cellWidth sweepDegrees minSpacing := by
  simp only [calculateMinimumArcRadius]
  have hpi := Real.pi_pos
  by_cases hm1 : m ≤ 1
  · rw [if_pos (le_trans hnm hm1), if_pos hm1]
  · rw [if_neg hm1]
    have hm2 : 2 ≤ m := by omega
    have hdm : (1 : ℝ) ≤ (m : ℝ) - 1 := by
      have : (2 : ℝ) ≤ (m : ℝ) := by exact_mod_cast hm2
      linarith
    have hxm0 : 0 < sweepDegrees * Real.pi / 180 / ((m : ℝ) - 1) / 2 := by positivity
    by_cases hn1 : n ≤ 1
    · rw [if_pos hn1]
      have hmax := le_max_right
        ((cellWidth + minSpacing) /
          (2 * Real.sin (sweepDegrees * Real.pi / 180 / ((m : ℝ) - 1) / 2))) cellWidth
      linarith
    · rw [if_neg hn1]
      have hn2 : 2 ≤ n := by omega
      have hdn : (1 : ℝ) ≤ (n : ℝ) - 1 := by
        have : (2 : ℝ) ≤ (n : ℝ) := by exact_mod_cast hn2
        linarith
      have hmono : (n : ℝ) - 1 ≤ (m : ℝ) - 1 := by
        have : (n : ℝ) ≤ (m : ℝ) := by exact_mod_cast hnm
        linarith
      have hσ0 : 0 < sweepDegrees * Real.pi / 180 := by positivity
      have hσπ : sweepDegrees * Real.pi / 180 ≤ Real.pi := by
        rw [div_le_iff (by norm_num : (0 : ℝ) < 180)]
        nlinarith
      have hxn_le : sweepDegrees * Real.pi / 180 / ((n : ℝ) - 1) / 2 ≤ Real.pi / 2 := by
        have hd : sweepDegrees * Real.pi / 180 / ((n : ℝ) - 1) ≤ sweepDegrees * Real.pi / 180 :=
          div_le_self (le_of_lt hσ0) hdn
        linarith
      have hxmn : sweepDegrees * Real.pi / 180 / ((m : ℝ) - 1) / 2 ≤
          sweepDegrees * Real.pi / 180 / ((n : ℝ) - 1) / 2 := by
        have := div_le_div_of_nonneg_left (le_of_lt hσ0) (by linarith : (0 : ℝ) < (n : ℝ) - 1)
          hmono
        linarith
      have hsinm0 : 0 < Real.sin (sweepDegrees * Real.pi / 180 / ((m : ℝ) - 1) / 2) :=
        Real.sin_pos_of_pos_of_lt_pi hxm0 (by linarith)
      have hsinle : Real.sin (sweepDegrees * Real.pi / 180 / ((m : ℝ) - 1) / 2) ≤
          Real.sin (sweepDegrees * Real.pi / 180 / ((n : ℝ) - 1) / 2) := by
        apply Real.strictMonoOn_sin.monotoneOn
        · exact Set.mem_Icc.mpr ⟨by linarith, by linarith⟩
        · exact Set.mem_Icc.mpr ⟨by linarith, by linarith⟩
        · exact hxmn
      have hdivle : (cellWidth + minSpacing) /
          (2 * Real.sin (sweepDegrees * Real.pi / 180 / ((n : ℝ) - 1) / 2)) ≤
          (cellWidth + minSpacing) /
          (2 * Real.sin (sweepDegrees * Real.pi / 180 / ((m : ℝ) - 1) / 2)) :=
        div_le_div_of_nonneg_left (by linarith) (by linarith) (by linarith)
      exact add_le_add_right (max_le_max hdivle le_rfl) _

/-- Witness for C2 amended: concrete monotonicity instance at a 180-degree
sweep between two and three seats. -/
theorem calculateMinimumArcRadius_mono_witness :
    (0 : ℝ) < 10 ∧ (0 : ℝ) ≤ 0 ∧ (0 : ℝ) < 180 ∧ (180 : ℝ) ≤ 180 ∧
    (1 : ℕ) ≤ 2 ∧ (2 : ℕ) ≤ 3 ∧
    calculateMinimumArcRadius 2 10 180 0 ≤ calculateMinimumArcRadius 3 10 180 0 :=
  ⟨by norm_num, le_refl 0, by norm_num, le_refl 180, by decide, by decide,
   calculateMinimumArcRadius_mono_of_sweep_le_180 10 180 0 2 3
     (by norm_num) (le_refl 0) (by norm_num) (le_refl 180) (by decide) (by decide)⟩

end Zonetrix
